import Mathlib

/-!
A shallow embedding of the `grass` SCSS compiler front-end (the files
`src/lib.rs`, `src/atrule/if_rule.rs`, `src/atrule/function.rs`,
`src/atrule/unknown.rs`, `src/value/map.rs`) together with models of the
helper modules (`utils`, `scope`, `value`, `style`) that the repository
uses but whose sources are not part of the given tree.  Definitions
translated from a source file name the file; definitions whose doc
comment starts with `Modelled from the spec:` stand for code outside the
given tree and follow the natural-language specification.

Rust's `SassResult<T>` is embedded as `Except SErr T`.  Rust panics
(`unwrap` on `None`, `todo!`) are embedded as a dedicated error
constructor `SErr.panicked` that no evaluator catches, and inputs that
fall outside the modelled language fragment produce `SErr.unmodelled`.
The thread-local `GLOBAL_SCOPE` is embedded by threading an explicit
global-scope value through every operation that can reach
`insert_global_var`; errors do not roll the global scope back, matching
the thread-local semantics, so such operations return a pair
`Except SErr α × Scope`.  Rust's unbounded recursion is embedded with an
explicit fuel parameter (structural recursion on `Nat`); exhausting fuel
yields `SErr.unmodelled`, and every theorem quantifies over or fixes a
sufficient fuel.
-/

namespace Grass

/-- A token, as produced by the lexer: a single character plus its byte
position (`src/lib.rs` uses `Token { kind: char, pos }`; the span is
simplified to the starting offset). -/
structure Token where
  kind : Char
  pos : Nat
  deriving DecidableEq, Repr

/-- Modelled from the spec: the lexer turns source text into one token
per character, positions counting bytes from 0 (section 4.1). -/
def lex (s : String) : List Token :=
  (s.data.enum).map (fun p => ⟨p.2, p.1⟩)

/-- A value together with the span that produced it (`codemap::Spanned`,
span simplified to an offset). -/
structure Spanned (α : Type) where
  node : α
  span : Nat
  deriving DecidableEq, Repr

/-- Errors of the embedding.  `sass` is a returned `SassError` (message
plus optional span; errors built from a bare `&str` carry no span).
`panicked` stands for a Rust panic (`unwrap`, `todo!`): it unwinds, so no
evaluator treats it as a catchable error.  `unmodelled` marks inputs
outside the modelled language fragment (and exhausted fuel). -/
inductive SErr where
  | sass (msg : String) (span : Option Nat)
  | panicked (msg : String)
  | unmodelled (what : String)
  deriving DecidableEq, Repr

/-- Only a returned `SassError` is an ordinary `Err` value in Rust; a
panic or an out-of-fragment marker is not. -/
def SErr.isCatchable : SErr → Bool
  | .sass _ _ => true
  | _ => false

/-- The Sass value algebra, restricted to the variants the claims
exercise: null, booleans, numbers with a unit, and strings with a
quoted flag (`Value` in `src/value`, not under the given tree; variants
follow the spec's data model, section 3). -/
inductive Value where
  | null
  | bool (b : Bool)
  | number (n : Int) (unit : String)
  | str (s : String) (quoted : Bool)
  deriving DecidableEq, Repr

/-- Truthiness (`Value::is_true`): only `false` and `null` are falsy
(spec section 4.4). -/
def Value.isTruthy : Value → Bool
  | .bool false => false
  | .null => false
  | _ => true

/-- Modelled from the spec: value equality (`Value::equals`, not under
the given tree): structural across types; numbers compare by magnitude
and unit (unit conversion is outside the modelled fragment, so only
identical units compare equal); quoted and unquoted strings with equal
contents compare equal (spec section 4.4). -/
def Value.valueEq : Value → Value → Bool
  | .null, .null => true
  | .bool a, .bool b => a == b
  | .number n u, .number m w => n == m && u == w
  | .str s _, .str t _ => s == t
  | _, _ => false

/-- Modelled from the spec: CSS stringification used by interpolation:
quoted strings become unquoted, numbers keep their unit (spec
section 4.2). -/
def Value.toCssString : Value → String
  | .null => ""
  | .bool b => if b then "true" else "false"
  | .number n u => toString n ++ u
  | .str s _ => s

/-- A scope (`src/scope.rs`, not under the given tree), restricted to
the variable namespace the claims exercise; bindings are an
insertion-ordered association list. -/
structure Scope where
  vars : List (String × Value)
  deriving DecidableEq, Repr

/-- The empty scope (`Scope::new`). -/
def Scope.new : Scope := ⟨[]⟩

/-- Modelled from the spec: `get_var(name)` returns the binding or a
`NotFound` error (spec section 4.3). -/
def Scope.getVar (s : Scope) (name : String) : Except SErr Value :=
  match s.vars.find? (fun p => p.1 == name) with
  | some p => .ok p.2
  | none => .error (.sass ("Undefined variable: $" ++ name ++ ".") none)

/-- Replacement in an association list, keeping the position of an
existing binding (helper for `Scope.insertVar`). -/
def insertAssoc (name : String) (v : Value) : List (String × Value) → List (String × Value)
  | [] => [(name, v)]
  | p :: rest => if p.1 == name then (name, v) :: rest else p :: insertAssoc name v rest

/-- Modelled from the spec: `insert_var` — last write wins within the
scope image (spec section 4.3). -/
def Scope.insertVar (s : Scope) (name : String) (v : Value) : Scope :=
  ⟨insertAssoc name v s.vars⟩

/-- Modelled from the spec: a selector is a comma-separated list of
complex selectors; each complex selector is kept as its raw text, which
is all the claims require (spec section 3). -/
abbrev Selector := List String

/-- `Selector::new`: the empty selector. -/
def Selector.new : Selector := []

/-! ## Token cursor utilities (`src/utils.rs`, not under the given tree;
contracts from spec section 4.2) -/

/-- ASCII whitespace recognised by the cursor. -/
def isWs (c : Char) : Bool := c == ' ' || c == '\n' || c == '\t' || c == '\r'

/-- Whether a character can appear in an identifier (letters, digits,
`-`, `_`; spec section 4.2). -/
def isIdentChar (c : Char) : Bool := c.isAlpha || c.isDigit || c == '-' || c == '_'

/-- Modelled from the spec: `devour_whitespace` consumes a run of ASCII
whitespace; the companion `devouredWs` reports whether any was
consumed. -/
def devourWhitespace (l : List Token) : List Token := l.dropWhile (fun t => isWs t.kind)

/-- Whether `devour_whitespace` would consume anything. -/
def devouredWs (l : List Token) : Bool :=
  match l with
  | [] => false
  | t :: _ => isWs t.kind

/-- Modelled from the spec: `devour_whitespace_or_comment`.  Comments do
not occur in any input considered here, so this consumes whitespace
runs; a `/` token is out of the modelled fragment. -/
def devourWhitespaceOrComment (l : List Token) : Except SErr (List Token) :=
  let l := devourWhitespace l
  match l with
  | ⟨'/', _⟩ :: _ => .error (.unmodelled "comment in devour_whitespace_or_comment")
  | _ => .ok l

/-- Modelled from the spec: `read_until_open_curly_brace` returns the
tokens before the first `{`, leaving the `{` in the stream. -/
def readUntilOpenCurlyBrace (l : List Token) : List Token × List Token :=
  (l.takeWhile (fun t => t.kind != '{'), l.dropWhile (fun t => t.kind != '{'))

/-- Modelled from the spec: `read_until_closing_curly_brace` returns the
tokens before the matching unbalanced `}` (tracking brace nesting),
leaving that `}` in the stream. -/
def readUntilClosingCurlyBrace (depth : Nat) : List Token → List Token × List Token
  | [] => ([], [])
  | t :: rest =>
    if t.kind == '}' then
      match depth with
      | 0 => ([], t :: rest)
      | d + 1 => let r := readUntilClosingCurlyBrace d rest; (t :: r.1, r.2)
    else if t.kind == '{' then
      let r := readUntilClosingCurlyBrace (depth + 1) rest; (t :: r.1, r.2)
    else
      let r := readUntilClosingCurlyBrace depth rest; (t :: r.1, r.2)

/-- Modelled from the spec: `eat_ident` reads an identifier (no
interpolation occurs in the inputs considered) and returns it with the
rest of the stream. -/
def eatIdent (l : List Token) : String × List Token :=
  (String.mk ((l.takeWhile (fun t => isIdentChar t.kind)).map Token.kind),
   l.dropWhile (fun t => isIdentChar t.kind))

/-- Lower-cased identifier comparison helper (`to_ascii_lowercase`). -/
def strToLower (s : String) : String := String.mk (s.data.map Char.toLower)

/-! ## Expression evaluation (`Value::from_tokens` in `src/value`, not
under the given tree).  The modelled fragment covers the literals the
claims exercise: `true`, `false`, `null`, bare identifiers (unquoted
strings), unsigned integers with an optional unit, variable
dereference, and a single binary `+` with the spec's unit and
concatenation rules (spec section 4.4). -/

/-- Parse an unsigned integer literal from tokens. -/
def parseNat (l : List Token) : Nat × List Token :=
  ((l.takeWhile (fun t => t.kind.isDigit)).foldl
      (fun acc t => acc * 10 + (t.kind.toNat - '0'.toNat)) 0,
   l.dropWhile (fun t => t.kind.isDigit))

/-- Modelled from the spec: parse one atom of an expression. -/
def parseAtom (l : List Token) (scope : Scope) : Except SErr (Spanned Value × List Token) :=
  match l with
  | [] => .error (.sass "Expected expression." none)
  | t :: rest =>
    if t.kind == '$' then
      let (name, rest') := eatIdent rest
      match scope.getVar name with
      | .ok v => .ok (⟨v, t.pos⟩, rest')
      | .error e => .error e
    else if t.kind.isDigit then
      let (n, rest') := parseNat (t :: rest)
      let (unit, rest'') := eatIdent rest'
      .ok (⟨.number (Int.ofNat n) unit, t.pos⟩, rest'')
    else if t.kind.isAlpha then
      let (id, rest') := eatIdent (t :: rest)
      if id == "true" then .ok (⟨.bool true, t.pos⟩, rest')
      else if id == "false" then .ok (⟨.bool false, t.pos⟩, rest')
      else if id == "null" then .ok (⟨.null, t.pos⟩, rest')
      else .ok (⟨.str id false, t.pos⟩, rest')
    else
      .error (.unmodelled "expression atom")

/-- Modelled from the spec: binary `+` (spec section 4.4): numbers with
incompatible units fail with an arithmetic error, a unitless operand
adopts the other unit, string concatenation is quoted iff the left
operand is quoted. -/
def valuePlus (a b : Value) (span : Nat) : Except SErr Value :=
  match a, b with
  | .number n u, .number m w =>
    if u == w || w == "" then .ok (.number (n + m) u)
    else if u == "" then .ok (.number (n + m) w)
    else .error (.sass ("Incompatible units " ++ u ++ " and " ++ w ++ ".") (some span))
  | .str s q, v => .ok (.str (s ++ v.toCssString) q)
  | .number n u, .str t _ => .ok (.str (toString n ++ u ++ t) false)
  | a', b' => .error (.sass (a'.toCssString ++ " + " ++ b'.toCssString ++ " is not a number.") (some span))

/-- Modelled from the spec: `Value::from_tokens` on the modelled
fragment: an atom, optionally followed by `+` and a second atom;
anything further is outside the fragment. -/
def Value.fromTokens (l : List Token) (scope : Scope) (_sel : Selector) :
    Except SErr (Spanned Value) :=
  match parseAtom (devourWhitespace l) scope with
  | .error e => .error e
  | .ok (a, rest) =>
    match devourWhitespace rest with
    | [] => .ok a
    | t :: rest' =>
      if t.kind == '+' then
        match parseAtom (devourWhitespace rest') scope with
        | .error e => .error e
        | .ok (b, rest'') =>
          match devourWhitespace rest'' with
          | [] =>
            match valuePlus a.node b.node a.span with
            | .ok v => .ok ⟨v, a.span⟩
            | .error e => .error e
          | _ => .error (.unmodelled "expression continuation")
      else .error (.unmodelled "expression operator")

/-- `Value::from_vec` (`src/value`): evaluate an owned token vector;
delegates to `from_tokens`. -/
def Value.fromVec (l : List Token) (scope : Scope) (sel : Selector) :
    Except SErr (Spanned Value) :=
  Value.fromTokens l scope sel

/-! ## The statement tree (`src/lib.rs`, `src/atrule`) -/

/-- A style declaration: property and value (`src/style.rs`, shape from
`src/lib.rs` usage). -/
structure Style where
  property : String
  value : Value
  deriving DecidableEq, Repr

/-- One `@if` / `@else if` branch: raw condition tokens and raw,
un-evaluated body tokens (`src/atrule/if_rule.rs`). -/
structure Branch where
  cond : List Token
  toks : List Token
  deriving DecidableEq, Repr

/-- An `@if` chain: the collected branches and the raw `@else` body
tokens (`src/atrule/if_rule.rs`). -/
structure If where
  branches : List Branch
  else_ : List Token
  deriving DecidableEq, Repr

/-- A formal function argument (`src/args.rs`, not under the given
tree; shape from the spec's data model). -/
structure FuncArg where
  name : String
  default : Option (List Token)
  isVariadic : Bool
  deriving DecidableEq, Repr

mutual

/-- An evaluated statement (`Stmt` in `src/lib.rs`). -/
inductive Stmt where
  | style (s : Style)
  | ruleSet (r : RuleSet)
  | multilineComment (s : String)
  | atRule (r : AtRule)

/-- A rule set: selector, child statements and the remembered outer
selector (`RuleSet` in `src/lib.rs`; the children are spanned, as in
`src/atrule/unknown.rs`). -/
inductive RuleSet where
  | mk (selector : Selector) (rules : List (Spanned Stmt)) (superSelector : Selector)

/-- At-rules surviving into the statement tree (`AtRule` in
`src/atrule`, not under the given tree; constructors follow the match
arms of `src/lib.rs` and `src/atrule/function.rs`; `@mixin` payloads
are outside the modelled fragment and omitted). -/
inductive AtRule where
  | ret (toks : List Token)
  | forRule (stmts : List (Spanned Stmt))
  | ifRule (i : If)
  | content
  | charset
  | errorRule (pos : Nat) (msg : String)
  | warn (pos : Nat) (msg : String)
  | debug (pos : Nat) (msg : String)
  | fnDecl (name : String) (f : Function)
  | unknown (u : UnknownAtRule)

/-- A user-defined function: captured scope, formal arguments, parsed
body and definition span (`Function` in `src/atrule/function.rs`). -/
inductive Function where
  | mk (scope : Scope) (args : List FuncArg) (body : List (Spanned Stmt)) (pos : Nat)

/-- An unknown at-rule preserved for output (`UnknownAtRule` in
`src/atrule/unknown.rs`). -/
inductive UnknownAtRule where
  | mk (name : String) (superSelector : Selector) (params : String) (body : List (Spanned Stmt))

end

/-- The captured scope of a function (`Function::scope`). -/
def Function.scope : Function → Scope
  | .mk s _ _ _ => s

/-- The formal arguments of a function (`Function::args`). -/
def Function.args : Function → List FuncArg
  | .mk _ a _ _ => a

/-- The parsed body of a function (`Function::body`). -/
def Function.body : Function → List (Spanned Stmt)
  | .mk _ _ b _ => b

/-- The definition span of a function (`Function::pos`). -/
def Function.pos : Function → Nat
  | .mk _ _ _ p => p

/-- The name of an unknown at-rule (`UnknownAtRule::name`). -/
def UnknownAtRule.name : UnknownAtRule → String
  | .mk n _ _ _ => n

/-- The stored super-selector of an unknown at-rule
(`UnknownAtRule::super_selector`). -/
def UnknownAtRule.superSelector : UnknownAtRule → Selector
  | .mk _ s _ _ => s

/-- The raw parameter text of an unknown at-rule
(`UnknownAtRule::params`). -/
def UnknownAtRule.params : UnknownAtRule → String
  | .mk _ _ p _ => p

/-- The body of an unknown at-rule (`UnknownAtRule::body`). -/
def UnknownAtRule.body : UnknownAtRule → List (Spanned Stmt)
  | .mk _ _ _ b => b

/-- Whether a statement is a style declaration (the discrimination made
by the loop in `UnknownAtRule::from_tokens`, `src/atrule/unknown.rs`
lines 59-64). -/
def Stmt.isStyle : Stmt → Bool
  | .style _ => true
  | _ => false

/-! ## Sass maps (`src/value/map.rs`) -/

/-- A Sass map: an insertion-ordered sequence of key/value pairs
(`SassMap` in `src/value/map.rs`). -/
abbrev SassMap := List (Value × Value)

/-- `SassMap::new`. -/
def SassMap.new : SassMap := []

/-- `SassMap::get` (`src/value/map.rs` lines 19-26): return the value of
the first entry whose key is value-equal (`Value::equals`) to the
queried key.  The source returns `SassResult<Option<Value>>`; the
modelled `equals` is total, so the error channel is dropped. -/
def SassMap.get (m : SassMap) (key : Value) : Option Value :=
  match m with
  | [] => none
  | (k, v) :: rest => if k.valueEq key then some v else SassMap.get rest key

/-- `SassMap::insert` (`src/value/map.rs` lines 64-73): replace the
value of the first entry with an equal key in place, else append the
pair; returns whether the key already existed.  The source compares
with `==` (`PartialEq` for `Value`, not under the given tree), modelled
from the spec as the same value equality used by `get` (spec
section 3: keys compared by value equality). -/
def SassMap.insert (m : SassMap) (key value : Value) : SassMap × Bool :=
  match m with
  | [] => ([(key, value)], false)
  | (k, v) :: rest =>
    if k.valueEq key then ((k, value) :: rest, true)
    else
      let r := SassMap.insert rest key value
      ((k, v) :: r.1, r.2)

/-! ## Parsing an `@if` chain (`If::from_tokens`, `src/atrule/if_rule.rs`
lines 36-102) -/

/-- The `loop { .. }` of `If::from_tokens` (`src/atrule/if_rule.rs`
lines 52-98): after the initial branch, repeatedly look for `@else if`
or `@else`.  Returns the collected branches, the `@else` body tokens and
the remaining stream at loop exit.  A peek at `@` whose following
character is not `e`/`E`, or a non-`@` token, breaks with the stream
untouched; an `@`-initial identifier other than `else` breaks after the
`@` and the identifier have already been consumed, exactly as the
source's `toks.next()` / `eat_ident` calls do. -/
def ifChainLoop (fuel : Nat) (branches : List Branch) (toks : List Token) :
    Except SErr (List Branch × List Token × List Token) :=
  match fuel with
  | 0 => .error (.unmodelled "fuel exhausted in If::from_tokens")
  | fuel + 1 =>
    match toks with
    | [] => .ok (branches, [], [])
    | t :: rest =>
      if t.kind == '@' then
        match rest with
        | [] => .error (.panicked "unwrap on None: peek_forward(1) at end of stream")
        | t1 :: _ =>
          if t1.kind != 'e' && t1.kind != 'E' then .ok (branches, [], toks)
          else
            let (id, afterIdent) := eatIdent rest
            if strToLower id == "else" then
              match devourWhitespace afterIdent with
              | [] => .ok (branches, [], [])
              | tok :: afterTok =>
                let stream := devourWhitespace afterTok
                if tok.kind.toLower == 'i' then
                  match stream with
                  | [] => .error (.panicked "unwrap on None after @else i")
                  | c :: afterC =>
                    if c.kind.toLower == 'f' then
                      let s2 := afterC.drop 1
                      let (cond, afterCond) := readUntilOpenCurlyBrace s2
                      let s3 := devourWhitespace (afterCond.drop 1)
                      let (body, afterBody) := readUntilClosingCurlyBrace 0 s3
                      let s4 := devourWhitespace (afterBody.drop 1)
                      ifChainLoop fuel (branches ++ [⟨cond, body⟩]) s4
                    else .error (.sass "expected \"\x7b\"." (some tok.pos))
                else if tok.kind == '{' then
                  let (els, afterEls) := readUntilClosingCurlyBrace 0 stream
                  .ok (branches, els, afterEls.drop 1)
                else .error (.sass "expected \"\x7b\"." (some tok.pos))
            else .ok (branches, [], afterIdent)
      else .ok (branches, [], toks)

/-- `If::from_tokens` (`src/atrule/if_rule.rs` lines 36-102): called
with the stream positioned just after the `@if` identifier; reads the
first condition and body (the initial branch's body tokens keep the
closing `}`, which the source pushes back), then the `@else` chain.
Returns the parsed chain and the remaining stream. -/
def If.fromTokens (fuel : Nat) (toks : List Token) : Except SErr (If × List Token) :=
  match devourWhitespaceOrComment toks with
  | .error e => .error e
  | .ok toks1 =>
    let (initCond, afterCond) := readUntilOpenCurlyBrace toks1
    match devourWhitespaceOrComment (afterCond.drop 1) with
    | .error e => .error e
    | .ok toks2 =>
      let (initToks, afterBody) := readUntilClosingCurlyBrace 0 toks2
      match afterBody with
      | [] => .error (.panicked "unwrap on None: missing closing brace of @if body")
      | closing :: toks3 =>
        match ifChainLoop fuel [⟨initCond, initToks ++ [closing]⟩] (devourWhitespace toks3) with
        | .error e => .error e
        | .ok (branches, els, rest) => .ok (⟨branches, els⟩, devourWhitespace rest)

/-! ## The expression classifier `eat_expr` (`src/lib.rs` lines 461-612)
and its collaborators -/

/-- The classification produced by `eat_expr` (`Expr` in `src/lib.rs`;
constructors outside the modelled fragment — mixin declarations,
includes, `@debug`/`@warn` — are omitted because the model reports
their inputs as unmodelled). -/
inductive Expr where
  | style (s : Style)
  | selector (s : Selector)
  | varDecl (name : String) (v : Value)
  | multilineComment (s : String)
  | atRule (r : AtRule)

/-- Drop trailing whitespace characters. -/
def trimTrailingWs (l : List Char) : List Char := (l.reverse.dropWhile isWs).reverse

/-- Trim whitespace from both ends (`str::trim`). -/
def trimChars (l : List Char) : List Char := trimTrailingWs (l.dropWhile isWs)

/-- Modelled from the spec: `Style::parse_property` — the identifier
before a `:` in the accumulated tokens, whitespace-trimmed. -/
def parseProperty (values : List Token) : String :=
  String.mk (trimChars ((values.takeWhile (fun t => t.kind != ':')).map Token.kind))

/-- Modelled from the spec: `Style::parse_value` applied to the part of
the accumulated tokens after the `:`. -/
def parseValueAfterColon (values : List Token) (scope : Scope) (sel : Selector) :
    Except SErr Value :=
  match Value.fromVec ((values.dropWhile (fun t => t.kind != ':')).drop 1) scope sel with
  | .ok v => .ok v.node
  | .error e => .error e

/-- Modelled from the spec: `Style::from_tokens` — read the value of a
style declaration from the stream up to `;` (consumed) or `}` (left in
place) and evaluate it. -/
def styleFromTokens (toks : List Token) (scope : Scope) (sel : Selector) (prop : String) :
    Except SErr (Expr × List Token) :=
  let valToks := toks.takeWhile (fun t => t.kind != ';' && t.kind != '}')
  let rest := toks.dropWhile (fun t => t.kind != ';' && t.kind != '}')
  let rest' := match rest with
    | t :: r => if t.kind == ';' then r else rest
    | [] => []
  match Value.fromVec valToks scope sel with
  | .ok v => .ok (.style ⟨prop, v.node⟩, devourWhitespace rest')
  | .error e => .error e

/-- A variable declaration's evaluated value and flags (`VariableDecl`
in `src/utils.rs`, not under the given tree). -/
structure VariableDecl where
  val : Value
  default : Bool
  global : Bool
  deriving DecidableEq, Repr

/-- Modelled from the spec: scan the value tokens of a variable
declaration for `!default` / `!global` flags, returning the tokens with
the flags removed and the two flags. -/
def extractFlags (fuel : Nat) (toks : List Token) : Except SErr (List Token × Bool × Bool) :=
  match fuel with
  | 0 => .error (.unmodelled "fuel exhausted in flag scan")
  | fuel + 1 =>
    match toks with
    | [] => .ok ([], false, false)
    | t :: rest =>
      if t.kind == '!' then
        let (id, rest') := eatIdent (devourWhitespace rest)
        if strToLower id == "default" then
          match extractFlags fuel rest' with
          | .ok (ts, _, gl) => .ok (ts, true, gl)
          | .error e => .error e
        else if strToLower id == "global" then
          match extractFlags fuel rest' with
          | .ok (ts, d, _) => .ok (ts, d, true)
          | .error e => .error e
        else .error (.unmodelled "unknown ! flag")
      else
        match extractFlags fuel rest with
        | .ok (ts, d, gl) => .ok (t :: ts, d, gl)
        | .error e => .error e

/-- Modelled from the spec: `eat_variable_value` — read the declaration
value up to `;` (consumed) or `}` (left), honour `!default` and
`!global`, and evaluate the value in the current scope. -/
def eatVariableValue (toks : List Token) (scope : Scope) (sel : Selector) :
    Except SErr (VariableDecl × List Token) :=
  let valToks := toks.takeWhile (fun t => t.kind != ';' && t.kind != '}')
  let rest := toks.dropWhile (fun t => t.kind != ';' && t.kind != '}')
  let rest' := match rest with
    | t :: r => if t.kind == ';' then r else rest
    | [] => []
  match extractFlags (valToks.length + 1) valToks with
  | .error e => .error e
  | .ok (cleaned, d, gl) =>
    match Value.fromVec cleaned scope sel with
    | .error e => .error e
    | .ok v => .ok (⟨v.node, d, gl⟩, devourWhitespace rest')

/-- Modelled from the spec: `read_until_newline` — drop through the next
newline. -/
def readUntilNewline (l : List Token) : List Token :=
  (l.dropWhile (fun t => t.kind != '\n')).drop 1

/-- Modelled from the spec: `eat_comment` — the text of a `/* .. */`
comment; the stream is positioned after the `/*`, and trailing
whitespace is consumed. -/
def eatComment : List Token → Except SErr (String × List Token)
  | ⟨'*', _⟩ :: ⟨'/', _⟩ :: rest => .ok ("", devourWhitespace rest)
  | t :: rest =>
    match eatComment rest with
    | .ok (s, rest') => .ok (String.mk (t.kind :: s.data), rest')
    | .error e => .error e
  | [] => .error (.sass "expected \"*/\"." none)

/-- `eat_interpolation` (`src/lib.rs` lines 614-629): collect tokens
until the braces opened so far (starting from the already-consumed
`#{`) are balanced; the final `}` is included. -/
def eatInterpolation (n : Nat) : List Token → List Token × List Token
  | [] => ([], [])
  | t :: rest =>
    let n' := if t.kind == '{' then n + 1 else if t.kind == '}' then n - 1 else n
    if n' == 0 then ([t], rest)
    else
      let r := eatInterpolation n' rest
      (t :: r.1, r.2)

/-- Modelled from the spec: `parse_interpolation` — evaluate the tokens
of a `#{..}` (stream positioned after the `#{`) in the current scope. -/
def parseInterpolation (toks : List Token) (scope : Scope) (sel : Selector) :
    Except SErr (Spanned Value × List Token) :=
  let r := eatInterpolation 1 toks
  match Value.fromVec r.1.dropLast scope sel with
  | .ok v => .ok (v, r.2)
  | .error e => .error e

/-- Modelled from the spec: `Selector::from_tokens` keeps the raw
selector text (sufficient for the claims, which only carry selectors
around). -/
def Selector.fromTokens (values : List Token) : Selector :=
  [String.mk (trimChars (values.map Token.kind))]

/-- `eat_expr` (`src/lib.rs` lines 461-612): classify the next construct
of the stream.  `values` is the accumulator of already-peeked tokens
(empty at the real entry point).  Returns the classification (none at
end of block/stream) and the remaining stream; the global scope is
threaded because the `$`-arm calls `insert_global_var` for `!global`
declarations.  Constructs outside the modelled fragment (`@include`,
`@mixin`, nested properties, `@each`, ...) yield `SErr.unmodelled`. -/
def eatExpr (fuel : Nat) (toks values : List Token) (scope : Scope) (sel : Selector)
    (g : Scope) : (Except SErr (Option Expr × List Token)) × Scope :=
  match fuel with
  | 0 => (.error (.unmodelled "fuel exhausted in eat_expr"), g)
  | fuel + 1 =>
    match toks with
    | [] => (.ok (none, []), g)
    | t :: rest =>
      if t.kind == ':' then
        if devouredWs rest then
          match styleFromTokens (devourWhitespace rest) scope sel (parseProperty values) with
          | .ok (e, rest') => (.ok (some e, rest'), g)
          | .error e => (.error e, g)
        else eatExpr fuel rest (values ++ [t]) scope sel g
      else if t.kind == ';' then
        let rest1 := devourWhitespace rest
        let v := devourWhitespace values
        match v with
        | [] => (.ok (some (.style ⟨"", .null⟩), devourWhitespace rest1), g)
        | _ =>
          match parseValueAfterColon v scope sel with
          | .ok value => (.ok (some (.style ⟨parseProperty v, value⟩), rest1), g)
          | .error e => (.error e, g)
      else if t.kind == '}' then
        match values with
        | [] => (.ok (none, devourWhitespace rest), g)
        | _ =>
          match parseValueAfterColon values scope sel with
          | .ok value => (.ok (some (.style ⟨parseProperty values, value⟩), toks), g)
          | .error e => (.error e, g)
      else if t.kind == '{' then
        (.ok (some (.selector (Selector.fromTokens values)), devourWhitespace rest), g)
      else if t.kind == '$' then
        match rest with
        | [] => (.error (.panicked "unwrap on None: peek after $"), g)
        | p :: prest =>
          if p.kind == '=' then eatExpr fuel prest (values ++ [t, p]) scope sel g
          else
            let (name, rest1) := eatIdent rest
            match rest1 with
            | [] => (.error (.panicked "unwrap on None: peek after variable name"), g)
            | q :: rest2 =>
              if q.kind == ':' then
                match eatVariableValue (devourWhitespace rest2) scope sel with
                | .error e => (.error e, g)
                | .ok (vd, rest3) =>
                  let g' := if vd.global then g.insertVar name vd.val else g
                  if !vd.default || !(scope.getVar name).isOk then
                    (.ok (some (.varDecl name vd.val), rest3), g')
                  else eatExpr fuel rest3 values scope sel g'
              else (.error (.panicked "not yet implemented: variable use here"), g)
      else if t.kind == '/' then
        match rest with
        | [] => (.error (.sass "expected more input." none), g)
        | p :: prest =>
          if p.kind == '/' then eatExpr fuel (devourWhitespace (readUntilNewline rest)) values scope sel g
          else if values.isEmpty && p.kind == '*' then
            match eatComment prest with
            | .ok (txt, rest') => (.ok (some (.multilineComment txt), rest'), g)
            | .error e => (.error e, g)
          else eatExpr fuel rest (values ++ [t]) scope sel g
      else if t.kind == '@' then
        let (id, rest1) := eatIdent rest
        let rest2 := devourWhitespace rest1
        if id == "return" then
          let toksR := rest2.takeWhile (fun u => u.kind != ';' && u.kind != '}')
          let restR := rest2.dropWhile (fun u => u.kind != ';' && u.kind != '}')
          let restR' := match restR with
            | u :: r => if u.kind == ';' then r else restR
            | [] => []
          (.ok (some (.atRule (.ret toksR)), devourWhitespace restR'), g)
        else if id == "if" then
          match If.fromTokens fuel rest2 with
          | .ok (i, rest') => (.ok (some (.atRule (.ifRule i)), rest'), g)
          | .error e => (.error e, g)
        else (.error (.unmodelled ("at-rule @" ++ id ++ " in eat_expr")), g)
      else if t.kind == '#' then
        match rest with
        | [] => (.error (.panicked "unwrap on None: peek after #"), g)
        | p :: prest =>
          if p.kind == '{' then
            let r := eatInterpolation 1 prest
            eatExpr fuel r.2 (values ++ [t, p] ++ r.1) scope sel g
          else eatExpr fuel rest (values ++ [t]) scope sel g
      else eatExpr fuel rest (values ++ [t]) scope sel g

/-- Modelled from the spec: the statement-collection loop shared by
`eat_stmts` (`src/atrule/parse.rs`) and `ruleset_eval`
(`src/atrule/mod.rs`), neither under the given tree: repeatedly run
`eat_expr`, turning styles, comments and at-rules into spanned
statements (at-rules are kept un-evaluated, as the parsed function
bodies that `Function::call` receives show) and applying variable
declarations to the local scope; stops at end of block.  Statement
spans are simplified to 0.  Returns the collected statements and the
updated local scope. -/
def rulesetEval (fuel : Nat) (toks : List Token) (scope : Scope) (sel : Selector)
    (acc : List (Spanned Stmt)) (g : Scope) :
    (Except SErr (List (Spanned Stmt) × Scope)) × Scope :=
  match fuel with
  | 0 => (.error (.unmodelled "fuel exhausted in ruleset_eval"), g)
  | fuel + 1 =>
    match eatExpr (fuel + 1) toks [] scope sel g with
    | (.error e, g') => (.error e, g')
    | (.ok (none, _), g') => (.ok (acc, scope), g')
    | (.ok (some e, rest), g') =>
      match e with
      | .style s => rulesetEval fuel rest scope sel (acc ++ [⟨.style s, 0⟩]) g'
      | .multilineComment s => rulesetEval fuel rest scope sel (acc ++ [⟨.multilineComment s, 0⟩]) g'
      | .varDecl n v => rulesetEval fuel rest (scope.insertVar n v) sel acc g'
      | .atRule r => rulesetEval fuel rest scope sel (acc ++ [⟨.atRule r, 0⟩]) g'
      | .selector _ => (.error (.unmodelled "nested rule set in statement body"), g')

/-! ## Evaluating an `@if` chain (`If::eval`, `src/atrule/if_rule.rs`
lines 104-133) -/

/-- The branch-selection loop of `If::eval`: find the first branch whose
condition evaluates truthy and evaluate its body tokens; condition
errors propagate; when every condition is falsy, evaluate the `@else`
tokens. -/
def If.evalBranches (fuel : Nat) (els : List Token) (scope : Scope) (sel : Selector)
    (g : Scope) : List Branch → (Except SErr (List (Spanned Stmt) × Scope)) × Scope
  | [] => rulesetEval fuel els scope sel [] g
  | b :: bs =>
    match Value.fromVec b.cond scope sel with
    | .error e => (.error e, g)
    | .ok v =>
      if v.node.isTruthy then rulesetEval fuel b.toks scope sel [] g
      else If.evalBranches fuel els scope sel g bs

/-- `If::eval` (`src/atrule/if_rule.rs` lines 104-133): evaluate the
conditions in order, then `ruleset_eval` the selected body (or the
`@else` body, or nothing). -/
def If.eval (fuel : Nat) (i : If) (scope : Scope) (sel : Selector) (g : Scope) :
    (Except SErr (List (Spanned Stmt) × Scope)) × Scope :=
  If.evalBranches fuel i.else_ scope sel g i.branches

/-! ## Calling a user-defined function (`Function::call`,
`src/atrule/function.rs` lines 108-132) -/

/-- The statement kinds `Function::call` rejects with "This at-rule is
not allowed here." — everything except `@return`, `@for` and `@if`
(the `_` arm of the match in `src/atrule/function.rs` line 128). -/
def Stmt.disallowedInFunction : Stmt → Bool
  | .atRule (.ret _) => false
  | .atRule (.forRule _) => false
  | .atRule (.ifRule _) => false
  | _ => true

/-- `Function::call` (`src/atrule/function.rs` lines 108-132): walk the
statements; the first `@return` evaluates its tokens in the captured
scope and returns; `@for` hits a `todo!` (a panic); for `@if`, the
chain is evaluated against a clone of the captured scope and the
resulting statements are processed recursively — `if let Ok(v)`
returns a successful value and silently discards a returned error
(panics still unwind); any other statement is an error; a body that
runs out is "Function finished without @return.".  The source's
unbounded recursion is fuelled; the recursive calls and the loop over
the remaining statements both step the fuel down. -/
def Function.call (fuel : Nat) (f : Function) (sel : Selector)
    (stmts : List (Spanned Stmt)) (g : Scope) : (Except SErr Value) × Scope :=
  match fuel with
  | 0 => (.error (.unmodelled "fuel exhausted in Function::call"), g)
  | fuel + 1 =>
    match stmts with
    | [] => (.error (.sass "Function finished without @return." (some f.pos)), g)
    | s :: rest =>
      match s.node with
      | .atRule (.ret toks) =>
        match Value.fromVec toks f.scope sel with
        | .ok v => (.ok v.node, g)
        | .error e => (.error e, g)
      | .atRule (.forRule _) => (.error (.panicked "not yet implemented: @for in function"), g)
      | .atRule (.ifRule i) =>
        match If.eval fuel i f.scope sel g with
        | (.error e, g') => (.error e, g')
        | (.ok (stmts2, _), g') =>
          match Function.call fuel f sel stmts2 g' with
          | (.ok v, g'') => (.ok v, g'')
          | (.error e, g'') =>
            if e.isCatchable then Function.call fuel f sel rest g''
            else (.error e, g'')
      | _ => (.error (.sass "This at-rule is not allowed here." (some s.span)), g)

/-! ## The rule-body driver (`eat_rules`, `src/lib.rs` lines 409-458) -/

/-- `eat_rules` (`src/lib.rs` lines 409-458): loop `eat_expr`, handling
each classification.  `depth` is the parser's `self.scope` counter: a
variable declaration at depth 0 is written to both the current scope
and the global scope, otherwise only to the current scope (lines
443-450).  Rule-set recursion (the `Expr::Selector` arm) is outside the
modelled fragment.  Returns the collected statements and the updated
current scope. -/
def eatRules (fuel : Nat) (depth : Nat) (toks : List Token) (scope : Scope)
    (sel : Selector) (acc : List Stmt) (g : Scope) :
    (Except SErr (List Stmt × Scope)) × Scope :=
  match fuel with
  | 0 => (.error (.unmodelled "fuel exhausted in eat_rules"), g)
  | fuel + 1 =>
    match eatExpr (fuel + 1) toks [] scope sel g with
    | (.error e, g') => (.error e, g')
    | (.ok (none, _), g') => (.ok (acc, scope), g')
    | (.ok (some e, rest), g') =>
      match e with
      | .style s => eatRules fuel depth rest scope sel (acc ++ [.style s]) g'
      | .multilineComment s => eatRules fuel depth rest scope sel (acc ++ [.multilineComment s]) g'
      | .varDecl name val =>
        if depth == 0 then
          eatRules fuel depth rest (scope.insertVar name val) sel acc (g'.insertVar name val)
        else
          eatRules fuel depth rest (scope.insertVar name val) sel acc g'
      | .atRule a =>
        match a with
        | .forRule s => eatRules fuel depth rest scope sel (acc ++ s.map Spanned.node) g'
        | .ifRule i =>
          match If.eval fuel i scope sel g' with
          | (.error e2, g'') => (.error e2, g'')
          | (.ok (stmts2, scope2), g'') =>
            eatRules fuel depth rest scope2 sel (acc ++ stmts2.map Spanned.node) g''
        | .content =>
          (.error (.sass "@content is only allowed within mixin declarations." none), g')
        | .ret _ => (.error (.sass "This at-rule is not allowed here." none), g')
        | r => eatRules fuel depth rest scope sel (acc ++ [.atRule r]) g'
      | .selector _ => (.error (.unmodelled "nested rule set in eat_rules"), g')

/-! ## The top-level driver (`StyleSheetParser::parse_toplevel`,
`src/lib.rs` lines 281-407) -/

/-- The observable outcome of the top-level loop: normal completion, or
process termination through `StyleSheetParser::error` (`src/lib.rs`
lines 647-670), which prints to stderr and calls
`std::process::exit(1)` instead of returning an error value. -/
inductive TopOut where
  | done
  | exited (code : Nat)
  deriving DecidableEq, Repr

/-- `StyleSheetParser::parse_toplevel` (`src/lib.rs` lines 281-407),
restricted to the arms the claims exercise: whitespace is skipped;
`$name: value;` declarations are parsed with `eat_variable_value`
against the global scope and written to it unless `!default` finds an
existing binding (lines 292-317; the `global` flag is ignored at top
level, as by the source's destructuring); a missing `:` is the
returned, span-less error `expected ":".`; `&` is a returned error; an
unexpected token reaches `self.error`, which exits the process with
status 1 (lines 400-403, 647-670).  Selector-initial tokens, `/` and
`@` lead into collaborators outside the modelled fragment. -/
def parseToplevel (fuel : Nat) (toks : List Token) (g : Scope) :
    (Except SErr TopOut) × Scope :=
  match fuel with
  | 0 => (.error (.unmodelled "fuel exhausted in parse_toplevel"), g)
  | fuel + 1 =>
    match toks with
    | [] => (.ok .done, g)
    | t :: rest =>
      let k := t.kind
      if k.isAlpha || k == '_' || k == '-' || k == '[' || k == '#' || k == ':'
          || k == '*' || k == '%' || k == '.' then
        (.error (.unmodelled "top-level rule set"), g)
      else if k == '\t' || k == '\n' || k == ' ' then
        parseToplevel fuel rest g
      else if k == '$' then
        let (name, rest1) := eatIdent rest
        match devourWhitespace rest1 with
        | [] => (.error (.panicked "unwrap on None after top-level variable name"), g)
        | c :: rest2 =>
          if c.kind != ':' then (.error (.sass "expected \":\"." none), g)
          else
            match eatVariableValue rest2 g Selector.new with
            | .error e => (.error e, g)
            | .ok (vd, rest3) =>
              if !vd.default || !(g.getVar name).isOk then
                parseToplevel fuel rest3 (g.insertVar name vd.val)
              else
                parseToplevel fuel rest3 g
      else if k == '/' then (.error (.unmodelled "top-level comment"), g)
      else if k == '@' then (.error (.unmodelled "top-level at-rule"), g)
      else if k == '&' then
        (.error (.sass "Base-level rules cannot contain the parent-selector-referencing character '&'." none), g)
      else (.ok (.exited 1), g)

/-! ## Unknown at-rules (`UnknownAtRule::from_tokens`,
`src/atrule/unknown.rs` lines 21-81) -/

/-- The parameter-reading loop of `UnknownAtRule::from_tokens`
(`src/atrule/unknown.rs` lines 28-50): collect the parameter text up to
the opening `{` (consumed), collapsing whitespace runs to one space and
expanding `#{..}` interpolation; a `#` not starting an interpolation is
pushed twice, once inside the match arm and once by the trailing
`params.push`, exactly as in the source. -/
def unknownParamsLoop (fuel : Nat) (toks : List Token) (params : List Char)
    (scope : Scope) (sel : Selector) : Except SErr (List Char × List Token) :=
  match fuel with
  | 0 => .error (.unmodelled "fuel exhausted in unknown at-rule params")
  | fuel + 1 =>
    match toks with
    | [] => .ok (params, [])
    | t :: rest =>
      if t.kind == '{' then .ok (params, rest)
      else if t.kind == '#' then
        match rest with
        | [] => .error (.panicked "unwrap on None: peek after #")
        | p :: prest =>
          if p.kind == '{' then
            match parseInterpolation prest scope sel with
            | .error e => .error e
            | .ok (v, rest') =>
              unknownParamsLoop fuel rest' (params ++ v.node.toCssString.data) scope sel
          else unknownParamsLoop fuel rest (params ++ ['#', '#']) scope sel
      else if isWs t.kind then
        unknownParamsLoop fuel (devourWhitespace rest) (params ++ [' ']) scope sel
      else unknownParamsLoop fuel rest (params ++ [t.kind]) scope sel

/-- The body-splitting loop of `UnknownAtRule::from_tokens`
(`src/atrule/unknown.rs` lines 58-64): walk the raw body once, pushing
style statements onto the synthetic rule set's `rules` and every other
statement onto the emitted body, in order. -/
def unknownSplit (raw : List (Spanned Stmt)) :
    List (Spanned Stmt) × List (Spanned Stmt) :=
  raw.foldl
    (fun acc s => if s.node.isStyle then (acc.1 ++ [s], acc.2) else (acc.1, acc.2 ++ [s]))
    ([], [])

/-- `UnknownAtRule::from_tokens` (`src/atrule/unknown.rs` lines 21-81):
read the parameter text, parse the body with `eat_stmts`, then replace
the placeholder at index 0 with a synthetic rule set that carries the
enclosing super-selector and the body's style declarations, followed by
the remaining statements. -/
def UnknownAtRule.fromTokens (fuel : Nat) (toks : List Token) (name : String)
    (scope : Scope) (sel : Selector) (kindSpan : Nat) (g : Scope) :
    (Except SErr UnknownAtRule) × Scope :=
  match unknownParamsLoop fuel toks [] scope sel with
  | .error e => (.error e, g)
  | .ok (params, rest) =>
    match rulesetEval fuel rest scope sel [] g with
    | (.error e, g') => (.error e, g')
    | (.ok (raw, _), g') =>
      let p := unknownSplit raw
      (.ok ⟨name, Selector.new, String.mk (trimChars params),
            ⟨.ruleSet (.mk sel p.1 Selector.new), kindSpan⟩ :: p.2⟩, g')

/-! ## Concrete inputs used by the theorems below -/

/-- A one-branch `@if true { color: red; }` chain, as stored inside a
parsed function body. -/
def c1If : If := ⟨[⟨lex "true", lex "color: red;"⟩], []⟩

/-- A user-defined function whose body is `@if true { color: red; } @return 1;`. -/
def c1Fn : Function :=
  .mk Scope.new [] [⟨.atRule (.ifRule c1If), 0⟩, ⟨.atRule (.ret (lex "1")), 5⟩] 0

/-- An `@if false { a: 1; } @else if true { b: 2; } @else { c: 3; }`
chain in parsed form. -/
def c2If : If :=
  ⟨[⟨lex "false", lex "a: 1;"⟩, ⟨lex "true", lex "b: 2;"⟩], lex "c: 3;"⟩

/-- The stream handed to `If::from_tokens` for
`@if true {color: red;} @each $x in y {}` (positioned just after the
`@if` identifier). -/
def c6Input : List Token := lex " true \x7bcolor: red;\x7d @each $x in y \x7b\x7d"

/-- The characters of the stream left after `If::from_tokens` consumed
the chain of `c6Input` (empty if parsing failed). -/
def c6Remaining : List Char :=
  match If.fromTokens 50 c6Input with
  | .ok (_, rem) => rem.map Token.kind
  | .error _ => []

/-- The source text of the unknown at-rule used by the C7 witness. -/
def c7src : String := "(x:y) \x7b color: red; /* c */ height: 2px; \x7d"

/-! ## Helper lemmas -/

/-- Consuming whitespace twice is the same as consuming it once. -/
theorem devourWhitespace_idem (l : List Token) :
    devourWhitespace (devourWhitespace l) = devourWhitespace l := by
  induction l with
  | nil => rfl
  | cons t rest ih =>
    by_cases h : isWs t.kind = true
    · simpa [devourWhitespace, h] using ih
    · simp [devourWhitespace, List.dropWhile, h]

/-- A stream of whitespace tokens is consumed entirely. -/
theorem devourWhitespace_all (l : List Token) (h : ∀ t ∈ l, isWs t.kind = true) :
    devourWhitespace l = [] := by
  simpa [devourWhitespace, List.dropWhile_eq_nil_iff] using h

/-- A whitespace character differs from any non-whitespace character. -/
theorem beq_false_of_isWs {c x : Char} (h : isWs c = true) (hx : isWs x = false) :
    (c == x) = false := by
  by_contra hne
  have hcx : c = x := by
    cases hcx : c == x
    · exact absurd hcx hne
    · exact eq_of_beq hcx
  rw [hcx] at h
  rw [h] at hx
  cases hx

/-- Skipping a prefix of branches whose conditions all evaluate to a
falsy value does not change the result of the branch-selection loop of
`If::eval`. -/
theorem evalBranches_append_falsy (fuel : Nat) (els : List Token) (scope : Scope)
    (sel : Selector) (g : Scope) (bs1 bs2 : List Branch)
    (h : ∀ b' ∈ bs1, ∃ v, Value.fromVec b'.cond scope sel = .ok v ∧ v.node.isTruthy = false) :
    If.evalBranches fuel els scope sel g (bs1 ++ bs2)
      = If.evalBranches fuel els scope sel g bs2 := by
  induction bs1 with
  | nil => rfl
  | cons b bs ih =>
    obtain ⟨v, hv, hf⟩ := h b (by simp)
    rw [List.cons_append, If.evalBranches, hv]
    simp only [hf]
    exact ih (fun b' hb' => h b' (by simp [hb']))

/-- Evaluating an empty token stream as a statement body yields the
accumulated statements and no error. -/
theorem rulesetEval_nil (fuel : Nat) (scope : Scope) (sel : Selector)
    (acc : List (Spanned Stmt)) (g : Scope) :
    rulesetEval (fuel + 1) [] scope sel acc g = (.ok (acc, scope), g) := rfl

/-- The body-splitting loop of `UnknownAtRule::from_tokens` computes the
two filters of the raw body: the style declarations and the other
statements, each in order. -/
theorem unknownSplit_eq_filter (raw : List (Spanned Stmt)) :
    unknownSplit raw
      = (raw.filter (fun s => s.node.isStyle), raw.filter (fun s => !s.node.isStyle)) := by
  have key : ∀ (l : List (Spanned Stmt)) (a b : List (Spanned Stmt)),
      l.foldl
        (fun acc s => if s.node.isStyle then (acc.1 ++ [s], acc.2) else (acc.1, acc.2 ++ [s]))
        (a, b)
      = (a ++ l.filter (fun s => s.node.isStyle), b ++ l.filter (fun s => !s.node.isStyle)) := by
    intro l
    induction l with
    | nil => intro a b; simp
    | cons s rest ih =>
      intro a b
      by_cases hs : s.node.isStyle = true
      · simp [List.foldl_cons, hs, ih, List.filter_cons]
      · simp only [Bool.not_eq_true] at hs
        simp [List.foldl_cons, hs, ih, List.filter_cons]
  simpa using key raw [] []

/-! ## Claim theorems -/

/-- C2: evaluating an `@if`/`@else if`/`@else` chain evaluates the
branch conditions in source order and evaluates the body of exactly the
first branch whose condition is truthy; if no condition is truthy the
`@else` body is evaluated; and if no condition is truthy and there is
no `@else`, evaluation yields no statements and no error. -/
theorem if_eval_first_truthy_branch (fuel : Nat) (i : If) (scope : Scope)
    (sel : Selector) (g : Scope) :
    (∀ bs1 b bs2, i.branches = bs1 ++ b :: bs2 →
      (∀ b' ∈ bs1, ∃ v, Value.fromVec b'.cond scope sel = .ok v ∧ v.node.isTruthy = false) →
      (∃ v, Value.fromVec b.cond scope sel = .ok v ∧ v.node.isTruthy = true) →
      If.eval fuel i scope sel g = rulesetEval fuel b.toks scope sel [] g)
    ∧
    ((∀ b' ∈ i.branches, ∃ v, Value.fromVec b'.cond scope sel = .ok v ∧ v.node.isTruthy = false) →
      If.eval fuel i scope sel g = rulesetEval fuel i.else_ scope sel [] g)
    ∧
    ((∀ b' ∈ i.branches, ∃ v, Value.fromVec b'.cond scope sel = .ok v ∧ v.node.isTruthy = false) →
      i.else_ = [] →
      If.eval (fuel + 1) i scope sel g = (.ok ([], scope), g)) := by
  refine ⟨?_, ?_, ?_⟩
  · intro bs1 b bs2 hsplit hfalsy htrue
    obtain ⟨v, hv, ht⟩ := htrue
    rw [If.eval, hsplit, evalBranches_append_falsy fuel i.else_ scope sel g bs1 (b :: bs2) hfalsy,
      If.evalBranches, hv]
    simp only [ht]
    rfl
  · intro hfalsy
    have h := evalBranches_append_falsy fuel i.else_ scope sel g i.branches [] hfalsy
    rw [List.append_nil] at h
    rw [If.eval, h]
    rfl
  · intro hfalsy hels
    have h := evalBranches_append_falsy (fuel + 1) i.else_ scope sel g i.branches [] hfalsy
    rw [List.append_nil] at h
    rw [If.eval, h, hels]
    exact rulesetEval_nil fuel scope sel [] g

/-- Witness for C2 at a concrete chain
`@if false { a: 1; } @else if true { b: 2; } @else { c: 3; }`: the
second branch is the first truthy one and exactly its body is
evaluated. -/
theorem if_eval_first_truthy_branch_witness :
    If.eval 30 c2If Scope.new Selector.new Scope.new
      = (.ok ([⟨.style ⟨"b", .number 2 ""⟩, 0⟩], Scope.new), Scope.new) := by
  have h := (if_eval_first_truthy_branch 30 c2If Scope.new Selector.new Scope.new).1
    [⟨lex "false", lex "a: 1;"⟩] ⟨lex "true", lex "b: 2;"⟩ [] rfl
    (by
      intro b' hb'
      have hb : b' = ⟨lex "false", lex "a: 1;"⟩ := by simpa using hb'
      refine ⟨⟨.bool false, 0⟩, by rw [hb]; rfl, rfl⟩)
    ⟨⟨.bool true, 0⟩, rfl, rfl⟩
  exact h.trans rfl

/-- C3: calling a user-defined function evaluates its body statements
in order and returns the value of the first `@return` reached (the
statements after it are not evaluated); a call whose body finishes
without reaching any `@return` fails with
"Function finished without @return."; and a body statement that is not
`@return`, `@if` or `@for` fails with
"This at-rule is not allowed here.". -/
theorem function_call_return_semantics (fuel : Nat) (f : Function) (sel : Selector)
    (g : Scope) :
    (∀ toks sp rest,
      Function.call (fuel + 1) f sel (⟨.atRule (.ret toks), sp⟩ :: rest) g
        = ((Value.fromVec toks f.scope sel).map Spanned.node, g))
    ∧
    (Function.call (fuel + 1) f sel [] g
      = (.error (.sass "Function finished without @return." (some f.pos)), g))
    ∧
    (∀ (s : Stmt) (sp : Nat) (rest : List (Spanned Stmt)), s.disallowedInFunction = true →
      Function.call (fuel + 1) f sel (⟨s, sp⟩ :: rest) g
        = (.error (.sass "This at-rule is not allowed here." (some sp)), g)) := by
  refine ⟨?_, rfl, ?_⟩
  · intro toks sp rest
    cases hv : Value.fromVec toks f.scope sel with
    | ok v => simp [Function.call, hv, Except.map]
    | error e => simp [Function.call, hv, Except.map]
  · intro s sp rest hs
    cases s with
    | style _ => rfl
    | ruleSet _ => rfl
    | multilineComment _ => rfl
    | atRule r =>
      cases r with
      | ret _ => exact absurd hs (by simp [Stmt.disallowedInFunction])
      | forRule _ => exact absurd hs (by simp [Stmt.disallowedInFunction])
      | ifRule _ => exact absurd hs (by simp [Stmt.disallowedInFunction])
      | content => rfl
      | charset => rfl
      | errorRule _ _ => rfl
      | warn _ _ => rfl
      | debug _ _ => rfl
      | fnDecl _ _ => rfl
      | unknown _ => rfl

/-- Witness for C3 at concrete inputs: a body headed by
`@return 2px;` returns `2px` without touching the rest, the empty body
is the missing-return error, and a body headed by `@content` is the
not-allowed error. -/
theorem function_call_return_semantics_witness :
    Function.call 6 (Function.mk Scope.new [] [] 4) []
        [⟨.atRule (.ret (lex "2px")), 1⟩, ⟨.atRule .content, 9⟩] Scope.new
      = (.ok (Value.number 2 "px"), Scope.new)
    ∧ Function.call 6 (Function.mk Scope.new [] [] 4) [] [] Scope.new
      = (.error (.sass "Function finished without @return." (some 4)), Scope.new)
    ∧ Function.call 6 (Function.mk Scope.new [] [] 4) [] [⟨.atRule .content, 9⟩] Scope.new
      = (.error (.sass "This at-rule is not allowed here." (some 9)), Scope.new) := by
  have h := function_call_return_semantics 5 (Function.mk Scope.new [] [] 4) [] Scope.new
  exact ⟨(h.1 (lex "2px") 1 [⟨.atRule .content, 9⟩]).trans rfl, h.2.1,
    h.2.2 (.atRule .content) 9 [] rfl⟩

/-- C1 counterexample: in the body
`@if true { color: red; } @return 1;` of a user-defined function, the
selected branch evaluates to a style statement, recursively processing
that statement fails with "This at-rule is not allowed here." — and yet
the call succeeds with `1`: the error raised while evaluating the body
of the selected `@if` branch was discarded by the
`if let Ok(v) = self.call(..)` in `src/atrule/function.rs` line 121,
refuting the claim that it propagates. -/
theorem function_call_swallows_branch_error :
    If.eval 19 c1If Scope.new Selector.new Scope.new
      = (.ok ([⟨.style ⟨"color", .str "red" false⟩, 0⟩], Scope.new), Scope.new)
    ∧ Function.call 19 c1Fn Selector.new [⟨.style ⟨"color", .str "red" false⟩, 0⟩] Scope.new
      = (.error (.sass "This at-rule is not allowed here." (some 0)), Scope.new)
    ∧ Function.call 20 c1Fn Selector.new (Function.body c1Fn) Scope.new
      = (.ok (Value.number 1 ""), Scope.new) :=
  ⟨rfl, rfl, rfl⟩

/-- C1 amended: within `Function::call`, an error from evaluating the
`@if` chain itself (a condition error, or an error while converting the
selected branch's tokens to statements) propagates, and a successful
`@return` inside the branch propagates; but an error raised by
recursively processing the selected branch's resulting statements is
discarded and evaluation falls through to the statement after the
`@if` (panics still unwind). -/
theorem function_call_if_arm (fuel : Nat) (f : Function) (sel : Selector)
    (g g1 g2 : Scope) (i : If) (sp : Nat) (rest : List (Spanned Stmt)) :
    (∀ e, If.eval fuel i f.scope sel g = (.error e, g1) →
      Function.call (fuel + 1) f sel (⟨.atRule (.ifRule i), sp⟩ :: rest) g = (.error e, g1))
    ∧
    (∀ l sc v, If.eval fuel i f.scope sel g = (.ok (l, sc), g1) →
      Function.call fuel f sel l g1 = (.ok v, g2) →
      Function.call (fuel + 1) f sel (⟨.atRule (.ifRule i), sp⟩ :: rest) g = (.ok v, g2))
    ∧
    (∀ l sc e, If.eval fuel i f.scope sel g = (.ok (l, sc), g1) →
      Function.call fuel f sel l g1 = (.error e, g2) →
      e.isCatchable = true →
      Function.call (fuel + 1) f sel (⟨.atRule (.ifRule i), sp⟩ :: rest) g
        = Function.call fuel f sel rest g2) := by
  refine ⟨?_, ?_, ?_⟩
  · intro e h
    simp [Function.call, h]
  · intro l sc v h hcall
    simp [Function.call, h, hcall]
  · intro l sc e h hcall hc
    simp [Function.call, h, hcall, hc]

/-- Witness for the amended C1 at a concrete input: the branch of
`@if true { color: red; }` evaluates to a style statement, the
recursive call on it fails with a catchable error, and the enclosing
call therefore continues with the statement after the `@if`. -/
theorem function_call_if_arm_witness :
    Function.call 20 c1Fn Selector.new
        (⟨.atRule (.ifRule c1If), 0⟩ :: [⟨.atRule (.ret (lex "1")), 5⟩]) Scope.new
      = Function.call 19 c1Fn Selector.new [⟨.atRule (.ret (lex "1")), 5⟩] Scope.new :=
  (function_call_if_arm 19 c1Fn Selector.new Scope.new Scope.new Scope.new c1If 0
      [⟨.atRule (.ret (lex "1")), 5⟩]).2.2
    [⟨.style ⟨"color", .str "red" false⟩, 0⟩] Scope.new
    (.sass "This at-rule is not allowed here." (some 0)) rfl rfl rfl

/-- C4 counterexample: reversing the order of `$x: 1;` and
`$x: 2 !default;` does NOT leave `$x` equal to 2: the `!default`
declaration binds 2 to the fresh name, and the following plain
declaration overwrites it, so `$x` is 1 in this order as well. -/
theorem default_reversed_order_counterexample :
    parseToplevel 50 (lex "$x: 2 !default; $x: 1;") Scope.new
      = (.ok .done, ⟨[("x", .number 1 "")]⟩)
    ∧ Value.number 1 "" ≠ Value.number 2 "" :=
  ⟨rfl, by decide⟩

/-- C4 amended: a `!default` declaration is a silent no-op when a
binding for the name already exists (whatever its value) and binds the
value otherwise; `$x: 1; $x: 2 !default;` leaves `$x` equal to 1, and
so does the reversed order `$x: 2 !default; $x: 1;` (the plain
declaration written last wins). -/
theorem default_declaration_semantics (fuel : Nat) (v0 : Value) :
    (parseToplevel (fuel + 2) (lex "$x: 2 !default;") ⟨[("x", v0)]⟩
      = (.ok .done, ⟨[("x", v0)]⟩))
    ∧ (parseToplevel (fuel + 2) (lex "$x: 2 !default;") Scope.new
      = (.ok .done, ⟨[("x", .number 2 "")]⟩))
    ∧ (parseToplevel (fuel + 3) (lex "$x: 1; $x: 2 !default;") Scope.new
      = (.ok .done, ⟨[("x", .number 1 "")]⟩))
    ∧ (parseToplevel (fuel + 3) (lex "$x: 2 !default; $x: 1;") Scope.new
      = (.ok .done, ⟨[("x", .number 1 "")]⟩)) :=
  ⟨rfl, rfl, rfl, rfl⟩

/-- C5 counterexample: processing `$x: 2 !global;` at nesting depth 1
with a local scope binding `x` to 1 does write 2 to the root scope —
but it also overwrites the binding in the enclosing local scope, which
therefore is NOT unchanged, refuting the claim that the local scope is
bypassed: `eat_expr` calls `insert_global_var` and still returns the
`Expr::VariableDecl`, which `eat_rules` inserts into the current scope
(`src/lib.rs` lines 443-450, 542-547). -/
theorem global_writes_local_counterexample :
    eatRules 50 1 (lex "$x: 2 !global;") ⟨[("x", .number 1 "")]⟩ Selector.new [] Scope.new
      = (.ok ([], ⟨[("x", .number 2 "")]⟩), ⟨[("x", .number 2 "")]⟩)
    ∧ (⟨[("x", .number 2 "")]⟩ : Scope) ≠ ⟨[("x", .number 1 "")]⟩ :=
  ⟨rfl, by decide⟩

/-- C5 amended: a `$x: v !global` assignment inside a nested context
(depth ≥ 1) writes the binding to the root scope unconditionally, and
in addition the declaration is inserted into the enclosing local
scope. -/
theorem global_declaration_semantics (fuel d : Nat) (loc g : Scope) (sel : Selector)
    (acc : List Stmt) :
    eatRules (fuel + 2) (d + 1) (lex "$x: 2 !global;") loc sel acc g
      = (.ok (acc, loc.insertVar "x" (.number 2 "")), g.insertVar "x" (.number 2 "")) :=
  rfl

/-- C6: parsing the chain `@if true {color: red;} @each $x in y {}`
does NOT leave the `@each` token unconsumed: `If::from_tokens` peeks
the `e`, consumes the `@` and the identifier `each`, and only then
breaks, so the remaining stream starts at the following `$` — the
`@each` at-rule has been destroyed.  The claim (and the spec's
"terminal on any non-else token") describes the clear intent; the code
loses tokens on every `e`-initial non-else at-rule. -/
theorem if_chain_consumes_following_each :
    (If.fromTokens 50 c6Input).isOk = true
    ∧ c6Remaining = "$x in y \x7b\x7d".data
    ∧ c6Remaining ≠ "@each $x in y \x7b\x7d".data :=
  ⟨rfl, rfl, by decide⟩

/-- C9 counterexample: the unexpected top-level token `!` is not
returned to the caller as a SyntaxError: `parse_toplevel` reaches
`self.error`, which prints to stderr and calls `std::process::exit(1)`
(`src/lib.rs` lines 400-403 and 647-670), so the claim that every
compilation failure is reported as a returned error value fails. -/
theorem toplevel_unexpected_token_exits :
    parseToplevel 9 (lex "!") Scope.new = (.ok (.exited 1), Scope.new)
    ∧ (parseToplevel 9 (lex "!") Scope.new).1.isOk = true :=
  ⟨rfl, rfl⟩

/-- C9 amended: failures in recognised top-level constructs abort the
compilation and are returned to the caller as error values carrying a
message (not every such error carries a span: the `expected ":"` error
is built from a bare string), while an unexpected top-level token is
not returned at all — the parser prints the message and terminates the
process with exit status 1. -/
theorem toplevel_error_reporting :
    parseToplevel 9 (lex "$x 1;") Scope.new
      = (.error (.sass "expected \":\"." none), Scope.new)
    ∧ parseToplevel 9 (lex "&a\x7b\x7d") Scope.new
      = (.error
          (.sass "Base-level rules cannot contain the parent-selector-referencing character '&'."
            none),
         Scope.new)
    ∧ parseToplevel 9 (lex "!") Scope.new = (.ok (.exited 1), Scope.new) :=
  ⟨rfl, rfl, rfl⟩

/-- C7: when the body of an unknown at-rule is parsed at selector
scope, the emitted body starts with a synthetic rule set whose selector
is the enclosing super-selector and whose rules are exactly the
top-level style declarations of the body, in order; every other
statement of the body is re-emitted as-is after it, in order. -/
theorem unknown_atrule_wraps_styles (fuel : Nat) (toks : List Token) (name : String)
    (scope : Scope) (sel : Selector) (kindSpan : Nat) (g g' : Scope)
    (params : List Char) (rest : List Token) (raw : List (Spanned Stmt)) (sc : Scope)
    (hparams : unknownParamsLoop fuel toks [] scope sel = .ok (params, rest))
    (hbody : rulesetEval fuel rest scope sel [] g = (.ok (raw, sc), g')) :
    UnknownAtRule.fromTokens fuel toks name scope sel kindSpan g
      = (.ok (.mk name Selector.new (String.mk (trimChars params))
          (⟨.ruleSet (.mk sel (raw.filter fun s => s.node.isStyle) Selector.new), kindSpan⟩
            :: raw.filter (fun s => !s.node.isStyle))), g') := by
  simp [UnknownAtRule.fromTokens, hparams, hbody, unknownSplit_eq_filter]

/-- Witness for C7 at `@supports (x:y) { color: red; /* c */ height: 2px; }`
parsed under the super-selector `a`: both styles are hoisted into a
synthetic `a { .. }` rule set placed first, and the comment is
re-emitted after it. -/
theorem unknown_atrule_wraps_styles_witness :
    UnknownAtRule.fromTokens 60 (lex c7src) "supports" Scope.new ["a"] 7 Scope.new
      = (.ok (.mk "supports" Selector.new "(x:y)"
          [⟨.ruleSet (.mk ["a"]
              [⟨.style ⟨"color", .str "red" false⟩, 0⟩,
               ⟨.style ⟨"height", .number 2 "px"⟩, 0⟩] Selector.new), 7⟩,
           ⟨.multilineComment " c ", 0⟩]), Scope.new) :=
  (unknown_atrule_wraps_styles 60 (lex c7src) "supports" Scope.new ["a"] 7
      Scope.new Scope.new "(x:y) ".data ((lex c7src).drop 7)
      [⟨.style ⟨"color", .str "red" false⟩, 0⟩,
       ⟨.multilineComment " c ", 0⟩,
       ⟨.style ⟨"height", .number 2 "px"⟩, 0⟩] Scope.new rfl rfl).trans rfl

/-- C8: a Sass map is an insertion-ordered key/value sequence compared
by value equality: `get` returns the value of the first entry whose key
is value-equal to the queried key; `insert` with a key equal to an
existing one replaces that entry's value in place (keeping the stored
key, the entry's position and the map's length); `insert` with a fresh
key appends the pair at the end. -/
theorem sassmap_value_equality :
    (∀ (m1 m2 : SassMap) (e : Value × Value) (k : Value),
      (∀ e' ∈ m1, e'.1.valueEq k = false) → e.1.valueEq k = true →
      SassMap.get (m1 ++ e :: m2) k = some e.2)
    ∧
    (∀ (m1 m2 : SassMap) (e : Value × Value) (k v : Value),
      (∀ e' ∈ m1, e'.1.valueEq k = false) → e.1.valueEq k = true →
      SassMap.insert (m1 ++ e :: m2) k v = (m1 ++ (e.1, v) :: m2, true))
    ∧
    (∀ (m : SassMap) (k v : Value),
      (∀ e' ∈ m, e'.1.valueEq k = false) →
      SassMap.insert m k v = (m ++ [(k, v)], false)) := by
  refine ⟨?_, ?_, ?_⟩
  · intro m1 m2 e k h hk
    induction m1 with
    | nil => simp [SassMap.get, hk]
    | cons p rest ih =>
      have hp := h p (by simp)
      simp only [List.cons_append, SassMap.get, hp]
      simp only [Bool.false_eq_true, if_false]
      exact ih (fun e' he' => h e' (by simp [he']))
  · intro m1 m2 e k v h hk
    induction m1 with
    | nil => simp [SassMap.insert, hk]
    | cons p rest ih =>
      have hp := h p (by simp)
      simp only [List.cons_append, SassMap.insert, hp]
      simp only [Bool.false_eq_true, if_false, List.append_eq]
      rw [ih (fun e' he' => h e' (by simp [he']))]
  · intro m k v h
    induction m with
    | nil => rfl
    | cons p rest ih =>
      have hp := h p (by simp)
      simp only [SassMap.insert, hp]
      simp only [Bool.false_eq_true, if_false]
      rw [ih (fun e' he' => h e' (by simp [he']))]
      simp

/-- Witness for C8: the quoted string key `"a"` is value-equal — though
not structurally identical — to the unquoted key `a`, so lookup finds
the existing entry, inserting under it replaces the value in place
(stored key, position and length unchanged), and inserting the fresh
key `true` appends. -/
theorem sassmap_value_equality_witness :
    SassMap.get [(.str "a" true, .number 1 "")] (.str "a" false) = some (.number 1 "")
    ∧ SassMap.insert [(.str "a" true, .number 1 "")] (.str "a" false) (.number 2 "")
      = ([(.str "a" true, .number 2 "")], true)
    ∧ SassMap.insert [(.str "a" true, .number 1 "")] (.bool true) .null
      = ([(.str "a" true, .number 1 ""), (.bool true, .null)], false) := by
  refine ⟨?_, ?_, ?_⟩
  · exact sassmap_value_equality.1 [] [] (.str "a" true, .number 1 "") (.str "a" false)
      (by simp) rfl
  · exact sassmap_value_equality.2.1 [] [] (.str "a" true, .number 1 "") (.str "a" false)
      (.number 2 "") (by simp) rfl
  · exact sassmap_value_equality.2.2 [(.str "a" true, .number 1 "")] (.bool true) .null
      (by intro e' he'; simp at he'; rw [he']; rfl)

/-- The cursor's whitespace characters, enumerated. -/
theorem isWs_cases {c : Char} (h : isWs c = true) :
    c = ' ' ∨ c = '\n' ∨ c = '\t' ∨ c = '\r' := by
  simp only [isWs, Bool.or_eq_true, beq_iff_eq] at h
  tauto

/-- `eat_expr` pushes a whitespace token onto its accumulator and moves
on (the catch-all arm of the match in `src/lib.rs` line 608). -/
theorem eatExpr_skips_ws (n : Nat) (t : Token) (toks vals : List Token) (scope : Scope)
    (sel : Selector) (g : Scope) (ht : isWs t.kind = true) :
    eatExpr (n + 1) (t :: toks) vals scope sel g
      = eatExpr n toks (vals ++ [t]) scope sel g := by
  obtain ⟨c, p⟩ := t
  rcases isWs_cases ht with hc | hc | hc | hc <;> subst hc <;> rfl

/-- The `;` arm of `eat_expr` (`src/lib.rs` lines 483-500) on an
accumulator that devours to nothing: the stray semicolon is consumed
and the empty-property null style is returned. -/
theorem eatExpr_semicolon (n : Nat) (rest vals : List Token) (scope : Scope)
    (sel : Selector) (g : Scope) (sp : Nat) (hvals : devourWhitespace vals = []) :
    eatExpr (n + 1) (⟨';', sp⟩ :: rest) vals scope sel g
      = (.ok (some (.style ⟨"", .null⟩), devourWhitespace rest), g) := by
  have hstep : eatExpr (n + 1) (⟨';', sp⟩ :: rest) vals scope sel g
      = (let rest1 := devourWhitespace rest
         let v := devourWhitespace vals
         match v with
         | [] => (.ok (some (.style ⟨"", .null⟩), devourWhitespace rest1), g)
         | _ =>
           match parseValueAfterColon v scope sel with
           | .ok value => (.ok (some (.style ⟨parseProperty v, value⟩), rest1), g)
           | .error e => (.error e, g)) := rfl
  rw [hstep]
  simp only [hvals]
  rw [devourWhitespace_idem]

/-- Auxiliary for C10: running `eat_expr` on a whitespace run followed
by a `;`, with only whitespace accumulated so far, consumes through the
`;` (and the whitespace after it) and classifies the construct as the
empty-property null-value style. -/
theorem eatExpr_ws_run (ws : List Token) :
    ∀ (fuel : Nat) (rest vals : List Token) (scope : Scope) (sel : Selector)
      (g : Scope) (sp : Nat),
      (∀ t ∈ vals, isWs t.kind = true) → (∀ t ∈ ws, isWs t.kind = true) →
      eatExpr (ws.length + (fuel + 1)) (ws ++ ⟨';', sp⟩ :: rest) vals scope sel g
        = (.ok (some (.style ⟨"", .null⟩), devourWhitespace rest), g) := by
  induction ws with
  | nil =>
    intro fuel rest vals scope sel g sp hvals _
    simpa using
      eatExpr_semicolon fuel rest vals scope sel g sp (devourWhitespace_all vals hvals)
  | cons t ws ih =>
    intro fuel rest vals scope sel g sp hvals hws
    have ht := hws t (by simp)
    have hlen : (t :: ws).length + (fuel + 1) = (ws.length + (fuel + 1)) + 1 := by
      simp [List.length_cons]
      omega
    rw [hlen, List.cons_append, eatExpr_skips_ws _ t _ _ scope sel g ht]
    refine ih fuel rest (vals ++ [t]) scope sel g sp ?_ (fun u hu => hws u (by simp [hu]))
    intro u hu
    rcases List.mem_append.mp hu with h | h
    · exact hvals u h
    · have hu' : u = t := by simpa using h
      rw [hu']
      exact ht

/-- C10: inside a rule set, a stray semicolon preceded only by
whitespace is accepted rather than rejected: `eat_expr` consumes it and
returns a `Style` whose property is the empty string and whose value is
`Null`, so parsing continues without error. -/
theorem eat_expr_stray_semicolon (fuel : Nat) (ws rest : List Token) (scope : Scope)
    (sel : Selector) (g : Scope) (sp : Nat)
    (hws : ∀ t ∈ ws, isWs t.kind = true) :
    eatExpr (ws.length + (fuel + 1)) (ws ++ ⟨';', sp⟩ :: rest) [] scope sel g
      = (.ok (some (.style ⟨"", .null⟩), devourWhitespace rest), g) :=
  eatExpr_ws_run ws fuel rest [] scope sel g sp (by intro t ht; cases ht) hws

/-- Witness for C10 at the concrete block text `  ;x`: the two spaces
and the semicolon are consumed, the empty-property null style is
returned, and the `x` stays in the stream. -/
theorem eat_expr_stray_semicolon_witness :
    eatExpr 6 (lex "  ;x") [] Scope.new Selector.new Scope.new
      = (.ok (some (.style ⟨"", .null⟩), [⟨'x', 3⟩]), Scope.new) :=
  eat_expr_stray_semicolon 3 [⟨' ', 0⟩, ⟨' ', 1⟩] [⟨'x', 3⟩] Scope.new Selector.new
    Scope.new 2 (by decide)

end Grass
